import Mathlib

/-!
Shallow embedding of `src/titanic/features/fill.py` (class `RandomAgeImputer`,
helpers `age_imputer` and `fill_age`) and proofs about it.

Modelling choices:
* A pandas `Series` is a `dtype` tag together with a list of `Option ℚ`
  (`none` is the missing marker NaN; a present float/int value is `some q`).
* NumPy's process-global pseudo-random generator is modelled by an abstract
  state `(seed, position) : ℕ × ℕ` together with an entropy function
  `e : ℕ → ℕ → ℕ` giving the raw output stream of the generator for each
  seed.  `np.random.seed s` resets the state to `(s, 0)`;
  `np.random.randint low high size` raises `ValueError` when `low ≥ high`
  and otherwise consumes `size` raw outputs, mapping each raw output `x`
  to `low + x % (high - low)`, which ranges over `[low, high - 1]`.
* `astype(int)` truncates every float toward zero (C casting rule) and sets
  the integral dtype.
-/

/-- Element representation (pandas dtype) of a series: integral or floating. -/
inductive Dtype where
  | int64 : Dtype
  | float64 : Dtype
deriving DecidableEq, Repr

/-- A pandas Series: a dtype tag and an ordered list of optional values
(`none` models NaN / a missing entry). -/
structure Series where
  dtype : Dtype
  data : List (Option ℚ)
deriving DecidableEq, Repr

/-- Global NumPy generator state: current seed and number of raw outputs
already consumed from that seed's stream. -/
abbrev RngState := ℕ × ℕ

/-- `np.random.seed s`: reset the global generator deterministically. -/
def npSeed (s : ℕ) : RngState := (s, 0)

/-- One raw draw mapped into `[lo, hi - 1]`: the generator's raw output at
seed `s`, position `p`, reduced modulo the range width. -/
def drawOne (e : ℕ → ℕ → ℕ) (lo hi : ℤ) (s p : ℕ) : ℤ :=
  lo + ((e s p % (hi - lo).toNat : ℕ) : ℤ)

/-- `np.random.randint(lo, hi, size=n)`: raises `ValueError` when
`lo ≥ hi`, otherwise returns `n` draws from `[lo, hi - 1]` and advances the
generator state by `n`. -/
def npRandint (e : ℕ → ℕ → ℕ) (lo hi : ℤ) (n : ℕ) (st : RngState) :
    Except Unit (List ℤ × RngState) :=
  if lo < hi then
    Except.ok ((List.range n).map (fun k => drawOne e lo hi st.1 (st.2 + k)),
      (st.1, st.2 + n))
  else
    Except.error ()

/-- `X_copy[missing_mask] = random_ages` (line 43): assign the drawn values
to the missing positions in positional order, leaving present values alone. -/
def fillMissing : List (Option ℚ) → List ℤ → List (Option ℚ)
  | [], _ => []
  | none :: xs, r :: rs => some (r : ℚ) :: fillMissing xs rs
  | none :: xs, [] => none :: fillMissing xs []
  | some v :: xs, rs => some v :: fillMissing xs rs

/-- Truncation toward zero, the C cast NumPy applies in `astype(int)`. -/
def truncQ (q : ℚ) : ℤ :=
  if 0 ≤ q then ((q.num.toNat / q.den : ℕ) : ℤ)
  else -(((((-q).num.toNat / (-q).den : ℕ)) : ℤ))

/-- `X_copy.astype(int)` (line 46): truncate every value toward zero and
switch to the integral dtype. -/
def astypeInt (X : Series) : Series :=
  ⟨Dtype.int64, X.data.map (fun o => o.map (fun q => ((truncQ q : ℤ) : ℚ)))⟩

/-- `X.isna()` has at least one `True` entry. -/
def hasMissing (X : Series) : Bool := X.data.any Option.isNone

/-- `missing_mask.sum()` (line 38): the number of missing entries. -/
def nMissing (X : Series) : ℕ := (X.data.filter Option.isNone).length

/-- The imputer configuration set at `__init__` (lines 21–24). -/
structure RandomAgeImputer where
  min_age : ℤ
  max_age : ℤ
  random_state : Option ℕ
deriving DecidableEq, Repr

/-- `age_imputer` (lines 51–62): build an imputer from the configuration. -/
def age_imputer (min_age max_age : ℤ) (random_state : Option ℕ) :
    RandomAgeImputer :=
  ⟨min_age, max_age, random_state⟩

/-- `fit` (lines 26–28): no fitting required, returns `self`. -/
def RandomAgeImputer.fit (imp : RandomAgeImputer) (X : Series) :
    RandomAgeImputer :=
  imp

/-- Lines 33–34: seed the global generator iff `random_state` is set. -/
def postSeed (imp : RandomAgeImputer) (st : RngState) : RngState :=
  match imp.random_state with
  | some s => npSeed s
  | none => st

/-- `transform` (lines 30–48).  The global generator state is threaded
explicitly; the result is the returned series together with the final
generator state, or `ValueError` propagated from `np.random.randint`. -/
def RandomAgeImputer.transform (e : ℕ → ℕ → ℕ) (imp : RandomAgeImputer)
    (X : Series) (st : RngState) : Except Unit (Series × RngState) :=
  let X_copy := X
  let st1 := postSeed imp st
  if 0 < nMissing X_copy then
    match npRandint e imp.min_age (imp.max_age + 1) (nMissing X_copy) st1 with
    | Except.error u => Except.error u
    | Except.ok (random_ages, st2) =>
      let X1 : Series := ⟨X_copy.dtype, fillMissing X_copy.data random_ages⟩
      if X1.data.all Option.isSome then Except.ok (astypeInt X1, st2)
      else Except.ok (X1, st2)
  else
    Except.ok (X_copy, st1)

/-- `transform` with the caller's argument `X` threaded through explicitly,
returned as the first component.  `X.copy()` at line 32 allocates an
independent deep copy, so every subsequent write in the body (the mask
assignment at line 43 and the rebinding at line 46) targets `X_copy` only;
the value held by the caller's sequence at each return is therefore the
original `X`. -/
def RandomAgeImputer.transformWithInput (e : ℕ → ℕ → ℕ)
    (imp : RandomAgeImputer) (X : Series) (st : RngState) :
    Except Unit (Series × Series × RngState) :=
  let X_copy := X
  let st1 := postSeed imp st
  if 0 < nMissing X_copy then
    match npRandint e imp.min_age (imp.max_age + 1) (nMissing X_copy) st1 with
    | Except.error u => Except.error u
    | Except.ok (random_ages, st2) =>
      let X1 : Series := ⟨X_copy.dtype, fillMissing X_copy.data random_ages⟩
      if X1.data.all Option.isSome then Except.ok (X, astypeInt X1, st2)
      else Except.ok (X, X1, st2)
  else
    Except.ok (X, X_copy, st1)

/-- `fit_transform` (sklearn `TransformerMixin`): `fit` then `transform`. -/
def fit_transform (e : ℕ → ℕ → ℕ) (imp : RandomAgeImputer) (X : Series)
    (st : RngState) : Except Unit (Series × RngState) :=
  RandomAgeImputer.transform e (RandomAgeImputer.fit imp X) X st

/-- A DataFrame: named columns in order. -/
def DataFrame := List (String × Series)

/-- `df[c]`: column lookup, `none` models the `KeyError` case. -/
def DataFrame.getCol (df : DataFrame) (c : String) : Option Series :=
  (List.find? (fun p => p.1 == c) df).map Prod.snd

/-- `fill_age` (lines 65–78): build the imputer from the configuration and
`fit_transform` the `Age` column. -/
def fill_age (e : ℕ → ℕ → ℕ) (df : DataFrame)
    (min_age max_age : ℤ) (random_state : Option ℕ) (st : RngState) :
    Option (Except Unit (Series × RngState)) :=
  (df.getCol "Age").map (fun col =>
    fit_transform e (age_imputer min_age max_age random_state) col st)

instance {ε α : Type} [DecidableEq ε] [DecidableEq α] :
    DecidableEq (Except ε α) := fun a b =>
  match a, b with
  | Except.error e1, Except.error e2 =>
    if h : e1 = e2 then isTrue (by rw [h])
    else isFalse (fun hh => h (by cases hh; rfl))
  | Except.error _, Except.ok _ => isFalse (fun hh => Except.noConfusion hh)
  | Except.ok _, Except.error _ => isFalse (fun hh => Except.noConfusion hh)
  | Except.ok x, Except.ok y =>
    if h : x = y then isTrue (by rw [h])
    else isFalse (fun hh => h (by cases hh; rfl))

/-- Sample entropy function for concrete evaluations. -/
def eDemo : ℕ → ℕ → ℕ := fun s i => s + i

/-- Constant entropy function: every raw output is `n`. -/
def eConst (n : ℕ) : ℕ → ℕ → ℕ := fun _ _ => n

/-- Every present value of the series is an integer (its reduced
denominator is 1). -/
def allIntegral (X : Series) : Bool :=
  X.data.all (fun o => o.elim true (fun q => q.den == 1))

/-- The list of values `np.random.randint` hands to line 43 of `transform`,
as a function of the configuration, the input and the incoming state. -/
def draws (e : ℕ → ℕ → ℕ) (imp : RandomAgeImputer) (X : Series)
    (st : RngState) : List ℤ :=
  (List.range (nMissing X)).map (fun k =>
    drawOne e imp.min_age (imp.max_age + 1) (postSeed imp st).1
      ((postSeed imp st).2 + k))

lemma length_draws (e : ℕ → ℕ → ℕ) (imp : RandomAgeImputer) (X : Series)
    (st : RngState) : (draws e imp X st).length = nMissing X := by
  simp [draws]

lemma hasMissing_iff_nMissing_pos (X : Series) :
    hasMissing X = true ↔ 0 < nMissing X := by
  unfold hasMissing nMissing
  rw [List.any_eq_true, List.length_pos]
  constructor
  · rintro ⟨o, ho, hno⟩ hnil
    have := List.filter_eq_nil_iff.mp hnil o ho
    simp_all
  · intro hne
    rcases List.exists_mem_of_ne_nil _ hne with ⟨o, ho⟩
    exact ⟨o, (List.mem_filter.mp ho).1, (List.mem_filter.mp ho).2⟩

lemma nMissing_eq_zero_of_not_missing (X : Series)
    (h : hasMissing X = false) : nMissing X = 0 := by
  by_contra hne
  have := (hasMissing_iff_nMissing_pos X).mpr (Nat.pos_of_ne_zero hne)
  simp_all

lemma fillMissing_length (xs : List (Option ℚ)) (rs : List ℤ) :
    (fillMissing xs rs).length = xs.length := by
  induction xs generalizing rs with
  | nil => rfl
  | cons o xs ih =>
    cases o with
    | none =>
      cases rs with
      | nil => simpa [fillMissing] using ih []
      | cons r rs => simpa [fillMissing] using ih rs
    | some v => simpa [fillMissing] using ih rs

lemma fillMissing_all_some (xs : List (Option ℚ)) (rs : List ℤ)
    (h : (xs.filter Option.isNone).length ≤ rs.length) :
    (fillMissing xs rs).all Option.isSome = true := by
  induction xs generalizing rs with
  | nil => rfl
  | cons o xs ih =>
    cases o with
    | none =>
      cases rs with
      | nil => simp at h
      | cons r rs =>
        simp only [fillMissing, List.all_cons, Option.isSome_some,
          Bool.true_and]
        exact ih rs (by simpa using h)
    | some v =>
      simp only [fillMissing, List.all_cons, Option.isSome_some,
        Bool.true_and]
      exact ih rs (by simpa using h)

lemma fillMissing_present (xs : List (Option ℚ)) (rs : List ℤ) (i : ℕ)
    (v : ℚ) (h : xs.get? i = some (some v)) :
    (fillMissing xs rs).get? i = some (some v) := by
  induction xs generalizing rs i with
  | nil => simp at h
  | cons o xs ih =>
    cases o with
    | none =>
      cases i with
      | zero => simp at h
      | succ j =>
        cases rs with
        | nil => simpa [fillMissing] using ih [] j (by simpa using h)
        | cons r rs => simpa [fillMissing] using ih rs j (by simpa using h)
    | some w =>
      cases i with
      | zero =>
        simp only [List.get?] at h
        simpa [fillMissing] using h
      | succ j => simpa [fillMissing] using ih rs j (by simpa using h)

lemma fillMissing_missing (xs : List (Option ℚ)) (rs : List ℤ) (i : ℕ)
    (hlen : (xs.filter Option.isNone).length ≤ rs.length)
    (h : xs.get? i = some none) :
    ∃ r, r ∈ rs ∧ (fillMissing xs rs).get? i = some (some (r : ℚ)) := by
  induction xs generalizing rs i with
  | nil => simp at h
  | cons o xs ih =>
    cases o with
    | none =>
      cases rs with
      | nil => simp at hlen
      | cons r rs =>
        cases i with
        | zero => exact ⟨r, List.mem_cons_self r rs, rfl⟩
        | succ j =>
          rcases ih rs j (by simpa using hlen) (by simpa using h) with
            ⟨r', hr', hget⟩
          refine ⟨r', List.mem_cons_of_mem r hr', ?_⟩
          simpa [fillMissing, List.get?_eq_getElem?] using hget
    | some w =>
      cases i with
      | zero => simp at h
      | succ j =>
        rcases ih rs j (by simpa using hlen) (by simpa using h) with
          ⟨r', hr', hget⟩
        refine ⟨r', hr', ?_⟩
        simpa [fillMissing, List.get?_eq_getElem?] using hget

lemma drawOne_bounds (e : ℕ → ℕ → ℕ) (lo hi : ℤ) (s p : ℕ) (h : lo < hi) :
    lo ≤ drawOne e lo hi s p ∧ drawOne e lo hi s p < hi := by
  unfold drawOne
  have hm : 0 < (hi - lo).toNat := by omega
  have hx : e s p % (hi - lo).toNat < (hi - lo).toNat := Nat.mod_lt _ hm
  omega

lemma truncQ_intCast (n : ℤ) : truncQ (n : ℚ) = n := by
  unfold truncQ
  rcases le_or_lt 0 n with h | h
  · rw [if_pos (by exact_mod_cast h)]
    rw [Rat.num_intCast, Rat.den_intCast, Nat.div_one]
    omega
  · rw [if_neg (by exact_mod_cast not_le.mpr h)]
    have hcast : (-(n : ℚ)) = ((-n : ℤ) : ℚ) := by push_cast; ring
    rw [hcast, Rat.num_intCast, Rat.den_intCast, Nat.div_one]
    omega

lemma astypeInt_getElem (X : Series) (i : ℕ) :
    (astypeInt X).data[i]? =
      (X.data[i]?).map (Option.map (fun q => ((truncQ q : ℤ) : ℚ))) := by
  simp [astypeInt]

lemma astypeInt_all_some (X : Series) :
    (astypeInt X).data.all Option.isSome = X.data.all Option.isSome := by
  unfold astypeInt
  simp only [List.all_map]
  congr 1
  funext o
  cases o <;> rfl

lemma transform_no_missing (e : ℕ → ℕ → ℕ) (imp : RandomAgeImputer)
    (X : Series) (st : RngState) (h : hasMissing X = false) :
    RandomAgeImputer.transform e imp X st = Except.ok (X, postSeed imp st) := by
  simp only [RandomAgeImputer.transform]
  rw [nMissing_eq_zero_of_not_missing X h]
  simp

lemma transform_missing_eq (e : ℕ → ℕ → ℕ) (imp : RandomAgeImputer)
    (X : Series) (st : RngState) (hm : hasMissing X = true)
    (hle : imp.min_age ≤ imp.max_age) :
    RandomAgeImputer.transform e imp X st =
      Except.ok (astypeInt ⟨X.dtype, fillMissing X.data (draws e imp X st)⟩,
        ((postSeed imp st).1, (postSeed imp st).2 + nMissing X)) := by
  have hpos := (hasMissing_iff_nMissing_pos X).mp hm
  have hlt : imp.min_age < imp.max_age + 1 := by omega
  have hall : (fillMissing X.data ((List.range (nMissing X)).map fun k =>
      drawOne e imp.min_age (imp.max_age + 1) (postSeed imp st).1
        ((postSeed imp st).2 + k))).all Option.isSome = true :=
    fillMissing_all_some _ _ (by simp [nMissing])
  simp only [RandomAgeImputer.transform, npRandint, if_pos hpos, if_pos hlt]
  rw [if_pos hall]
  rfl

lemma transform_missing_inv (e : ℕ → ℕ → ℕ) (imp : RandomAgeImputer)
    (X : Series) (st : RngState) (Y : Series) (st2 : RngState)
    (hm : hasMissing X = true)
    (hok : RandomAgeImputer.transform e imp X st = Except.ok (Y, st2)) :
    imp.min_age ≤ imp.max_age ∧
    Y = astypeInt ⟨X.dtype, fillMissing X.data (draws e imp X st)⟩ ∧
    st2 = ((postSeed imp st).1, (postSeed imp st).2 + nMissing X) := by
  by_cases hle : imp.min_age ≤ imp.max_age
  · rw [transform_missing_eq e imp X st hm hle] at hok
    injection hok with h
    injection h with h1 h2
    exact ⟨hle, h1.symm, h2.symm⟩
  · exfalso
    have hpos := (hasMissing_iff_nMissing_pos X).mp hm
    have hlt : ¬ imp.min_age < imp.max_age + 1 := by omega
    simp only [RandomAgeImputer.transform, npRandint, if_pos hpos,
      if_neg hlt] at hok
    exact Except.noConfusion hok

lemma mem_draws (e : ℕ → ℕ → ℕ) (imp : RandomAgeImputer) (X : Series)
    (st : RngState) (r : ℤ) (hr : r ∈ draws e imp X st) :
    ∃ k, k < nMissing X ∧
      r = drawOne e imp.min_age (imp.max_age + 1) (postSeed imp st).1
        ((postSeed imp st).2 + k) := by
  rcases List.mem_map.mp hr with ⟨k, hk, hrk⟩
  exact ⟨k, List.mem_range.mp hk, hrk.symm⟩

lemma drawOne_eConst_max (imp : RandomAgeImputer) (s p : ℕ)
    (hle : imp.min_age ≤ imp.max_age) :
    drawOne (eConst (imp.max_age - imp.min_age).toNat) imp.min_age
      (imp.max_age + 1) s p = imp.max_age := by
  unfold drawOne eConst
  have h1 : (imp.max_age + 1 - imp.min_age).toNat
      = (imp.max_age - imp.min_age).toNat + 1 := by omega
  rw [h1, Nat.mod_eq_of_lt (Nat.lt_succ_self _)]
  omega

/-- C1: when `min_age ≤ max_age` and the input has at least one missing
value, `transform` succeeds with a series of the same length and order in
which no missing value remains and every formerly-missing position holds
an integer in the inclusive range `[min_age, max_age]`; moreover `max_age`
itself is drawable: a generator stream is exhibited under which every
missing position is filled with exactly `max_age`. -/
theorem C1_transform_fills_missing_in_range (e : ℕ → ℕ → ℕ)
    (imp : RandomAgeImputer) (X : Series) (st : RngState)
    (hle : imp.min_age ≤ imp.max_age) (hm : hasMissing X = true) :
    (∃ Y st2, RandomAgeImputer.transform e imp X st = Except.ok (Y, st2) ∧
      Y.data.length = X.data.length ∧
      Y.data.all Option.isSome = true ∧
      ∀ i, X.data.get? i = some none →
        ∃ n : ℤ, Y.data.get? i = some (some (n : ℚ)) ∧
          imp.min_age ≤ n ∧ n ≤ imp.max_age) ∧
    (∃ Y2 st3, RandomAgeImputer.transform
        (eConst (imp.max_age - imp.min_age).toNat) imp X st
        = Except.ok (Y2, st3) ∧
      ∀ i, X.data.get? i = some none →
        Y2.data.get? i = some (some ((imp.max_age : ℤ) : ℚ))) := by
  constructor
  · refine ⟨_, _, transform_missing_eq e imp X st hm hle, ?_, ?_, ?_⟩
    · simp [astypeInt, fillMissing_length]
    · rw [astypeInt_all_some]
      exact fillMissing_all_some _ _ (by simp [nMissing, length_draws])
    · intro i hi
      rcases fillMissing_missing X.data (draws e imp X st) i
        (by simp [nMissing, length_draws]) hi with ⟨r, hrmem, hget⟩
      rcases mem_draws e imp X st r hrmem with ⟨k, hk, hrk⟩
      have hb := drawOne_bounds e imp.min_age (imp.max_age + 1)
        (postSeed imp st).1 ((postSeed imp st).2 + k) (by omega)
      refine ⟨r, ?_, by omega, by omega⟩
      simp only [List.get?_eq_getElem?] at hget
      simp [astypeInt_getElem, hget, truncQ_intCast]
  · refine ⟨_, _, transform_missing_eq _ imp X st hm hle, ?_⟩
    intro i hi
    rcases fillMissing_missing X.data
      (draws (eConst (imp.max_age - imp.min_age).toNat) imp X st) i
      (by simp [nMissing, length_draws]) hi with ⟨r, hrmem, hget⟩
    rcases mem_draws _ imp X st r hrmem with ⟨k, hk, hrk⟩
    have hrmax : r = imp.max_age := by
      rw [hrk]; exact drawOne_eConst_max imp _ _ hle
    subst hrmax
    simp only [List.get?_eq_getElem?] at hget
    simp [astypeInt_getElem, hget, truncQ_intCast]

/-- C1 witness: a concrete run with `min_age = 1`, `max_age = 80`,
seed 42 and input `[25, NaN]`. -/
theorem C1_witness :
    ((1 : ℤ) ≤ 80 ∧
      hasMissing ⟨Dtype.float64, [some 25, none]⟩ = true) ∧
    ((∃ Y st2, RandomAgeImputer.transform eDemo ⟨1, 80, some 42⟩
        ⟨Dtype.float64, [some 25, none]⟩ (0, 0) = Except.ok (Y, st2) ∧
        Y.data.length = ([some 25, none] : List (Option ℚ)).length ∧
        Y.data.all Option.isSome = true ∧
        ∀ i, ([some 25, none] : List (Option ℚ)).get? i = some none →
          ∃ n : ℤ, Y.data.get? i = some (some (n : ℚ)) ∧
            (1 : ℤ) ≤ n ∧ n ≤ 80) ∧
      (∃ Y2 st3, RandomAgeImputer.transform (eConst ((80 : ℤ) - 1).toNat)
          ⟨1, 80, some 42⟩ ⟨Dtype.float64, [some 25, none]⟩ (0, 0)
          = Except.ok (Y2, st3) ∧
        ∀ i, ([some 25, none] : List (Option ℚ)).get? i = some none →
          Y2.data.get? i = some (some ((80 : ℤ) : ℚ)))) :=
  ⟨⟨by decide, by decide⟩,
    C1_transform_fills_missing_in_range eDemo ⟨1, 80, some 42⟩
      ⟨Dtype.float64, [some 25, none]⟩ (0, 0) (by decide) (by decide)⟩

/-- C2 is false as stated: with input `[25.5, NaN]`, bounds `[1, 80]` and
seed 42, the present value `25.5` at position 0 is truncated to `25` by the
`astype(int)` at line 46, so a present value is altered. -/
theorem C2_counterexample :
    RandomAgeImputer.transform eDemo ⟨1, 80, some 42⟩
      ⟨Dtype.float64, [some (mkRat 51 2), none]⟩ (0, 0)
      = Except.ok (⟨Dtype.int64, [some 25, some 43]⟩, (42, 1)) ∧
    some (mkRat 51 2) ≠ (some 25 : Option ℚ) :=
  ⟨by decide, by decide⟩

/-- C2 amended: present values are preserved at their positions provided
the input has no missing value (so the `astype(int)` at line 46 is never
reached), or every present value is an integer (so the truncation is the
identity on it); in general a present non-integer value is truncated when
the input also contains a missing value. -/
theorem C2_present_values_preserved (e : ℕ → ℕ → ℕ)
    (imp : RandomAgeImputer) (X : Series) (st : RngState) (Y : Series)
    (st2 : RngState) (i : ℕ) (v : ℚ)
    (hok : RandomAgeImputer.transform e imp X st = Except.ok (Y, st2))
    (hcase : hasMissing X = false ∨ allIntegral X = true)
    (hv : X.data.get? i = some (some v)) :
    Y.data.get? i = some (some v) := by
  cases hmiss : hasMissing X with
  | false =>
    rw [transform_no_missing e imp X st hmiss] at hok
    injection hok with h
    injection h with h1 h2
    rw [← h1]
    exact hv
  | true =>
    have hint : allIntegral X = true := by
      rcases hcase with h | h
      · rw [hmiss] at h; exact absurd h (by simp)
      · exact h
    rcases transform_missing_inv e imp X st Y st2 hmiss hok with ⟨hle, hY, -⟩
    have hvmem : some v ∈ X.data := List.get?_mem hv
    unfold allIntegral at hint
    have hden : v.den = 1 := by
      have := List.all_eq_true.mp hint _ hvmem
      simpa using this
    have hvz : ((v.num : ℚ)) = v := (Rat.den_eq_one_iff v).mp hden
    subst hY
    have hpres := fillMissing_present X.data (draws e imp X st) i v hv
    rw [← hvz] at hpres
    simp only [List.get?_eq_getElem?] at hpres
    simp [astypeInt_getElem, hpres, truncQ_intCast]
    exact hvz

/-- C2 amended witness: seed 42, bounds `[1, 80]`, input `[25, NaN]` whose
present values are integers; position 0 keeps the value 25. -/
theorem C2_witness :
    (RandomAgeImputer.transform eDemo ⟨1, 80, some 42⟩
        ⟨Dtype.float64, [some 25, none]⟩ (0, 0)
        = Except.ok (⟨Dtype.int64, [some 25, some 43]⟩, (42, 1)) ∧
      allIntegral ⟨Dtype.float64, [some 25, none]⟩ = true ∧
      ([some 25, none] : List (Option ℚ)).get? 0 = some (some 25)) ∧
    ([some 25, some 43] : List (Option ℚ)).get? 0 = some (some 25) :=
  ⟨⟨by decide, by decide, by decide⟩,
    C2_present_values_preserved eDemo ⟨1, 80, some 42⟩
      ⟨Dtype.float64, [some 25, none]⟩ (0, 0)
      ⟨Dtype.int64, [some 25, some 43]⟩ (42, 1) 0 25 (by decide)
      (Or.inr (by decide)) (by decide)⟩

/-- C3 is false as stated: a float input with no missing value is returned
as is, so the output contains no missing values yet keeps the floating
dtype — the integral coercion at line 46 runs only when at least one value
was filled. -/
theorem C3_counterexample :
    RandomAgeImputer.transform eDemo ⟨1, 80, some 42⟩
      ⟨Dtype.float64, [some 25]⟩ (0, 0)
      = Except.ok (⟨Dtype.float64, [some 25]⟩, (42, 0)) ∧
    ([some 25] : List (Option ℚ)).all Option.isSome = true ∧
    Dtype.float64 ≠ Dtype.int64 :=
  ⟨rfl, rfl, by decide⟩

/-- C3 amended: when the input contains at least one missing value the
output has no missing values and an integral dtype; when it contains none,
the output is the input itself, retaining its original (possibly floating)
element representation. -/
theorem C3_dtype_integral_iff_filled (e : ℕ → ℕ → ℕ)
    (imp : RandomAgeImputer) (X : Series) (st : RngState) (Y : Series)
    (st2 : RngState)
    (hok : RandomAgeImputer.transform e imp X st = Except.ok (Y, st2)) :
    (hasMissing X = true →
      Y.dtype = Dtype.int64 ∧ Y.data.all Option.isSome = true) ∧
    (hasMissing X = false → Y = X) := by
  constructor
  · intro hm
    rcases transform_missing_inv e imp X st Y st2 hm hok with ⟨hle, hY, -⟩
    subst hY
    refine ⟨rfl, ?_⟩
    rw [astypeInt_all_some]
    exact fillMissing_all_some _ _ (by simp [nMissing, length_draws])
  · intro hm
    rw [transform_no_missing e imp X st hm] at hok
    injection hok with h
    injection h with h1 h2
    exact h1.symm

/-- C3 amended witness: the run of the counterexample input `[25.5, NaN]`
gets an integral dtype, while `[25]` with no missing value keeps `float64`
(second implication instantiated at the same call). -/
theorem C3_witness :
    RandomAgeImputer.transform eDemo ⟨1, 80, some 42⟩
      ⟨Dtype.float64, [some (mkRat 51 2), none]⟩ (0, 0)
      = Except.ok (⟨Dtype.int64, [some 25, some 43]⟩, (42, 1)) ∧
    ((hasMissing ⟨Dtype.float64, [some (mkRat 51 2), none]⟩ = true →
      Dtype.int64 = Dtype.int64 ∧
        ([some 25, some 43] : List (Option ℚ)).all Option.isSome = true) ∧
    (hasMissing ⟨Dtype.float64, [some (mkRat 51 2), none]⟩ = false →
      (⟨Dtype.int64, [some 25, some 43]⟩ : Series)
        = ⟨Dtype.float64, [some (mkRat 51 2), none]⟩)) :=
  ⟨by decide,
    C3_dtype_integral_iff_filled eDemo ⟨1, 80, some 42⟩
      ⟨Dtype.float64, [some (mkRat 51 2), none]⟩ (0, 0)
      ⟨Dtype.int64, [some 25, some 43]⟩ (42, 1) (by decide)⟩

/-- C4: with `random_state` set, `transform` first reseeds the global
generator (line 34), so two independent calls on the same input — whatever
generator state each starts from — return identical results. -/
theorem C4_same_seed_same_output (e : ℕ → ℕ → ℕ) (imp : RandomAgeImputer)
    (X : Series) (s : ℕ) (st st' : RngState)
    (h : imp.random_state = some s) :
    RandomAgeImputer.transform e imp X st =
      RandomAgeImputer.transform e imp X st' := by
  simp only [RandomAgeImputer.transform, postSeed, h]

/-- C4 witness: seed 42 on `[NaN]` from two different generator states. -/
theorem C4_witness :
    (RandomAgeImputer.mk 1 80 (some 42)).random_state = some 42 ∧
    RandomAgeImputer.transform eDemo ⟨1, 80, some 42⟩
        ⟨Dtype.float64, [none]⟩ (0, 0) =
      RandomAgeImputer.transform eDemo ⟨1, 80, some 42⟩
        ⟨Dtype.float64, [none]⟩ (7, 9) :=
  ⟨rfl, C4_same_seed_same_output eDemo ⟨1, 80, some 42⟩
    ⟨Dtype.float64, [none]⟩ 42 (0, 0) (7, 9) rfl⟩

/-- C5 is false as stated: the seeding at lines 33–34 happens before the
missing count is inspected, so with `random_state = 42` and the no-missing
input `[25]` the returned content equals the input, yet the global
generator state changes from `(0, 5)` to the seeded state `(42, 0)`. -/
theorem C5_counterexample :
    RandomAgeImputer.transform eDemo ⟨1, 80, some 42⟩
      ⟨Dtype.float64, [some 25]⟩ (0, 5)
      = Except.ok (⟨Dtype.float64, [some 25]⟩, (42, 0)) ∧
    ((42, 0) : RngState) ≠ ((0, 5) : RngState) :=
  ⟨rfl, by decide⟩

/-- C5 amended: on an input with zero missing values (the empty sequence
included) `transform` returns the input unchanged in content and dtype and
performs no draws; the generator state is untouched when `random_state` is
`None`, while when it is set the generator is reseeded (state reset to the
seeded state, position 0) even though no draw occurs. -/
theorem C5_no_missing_identity (e : ℕ → ℕ → ℕ) (imp : RandomAgeImputer)
    (X : Series) (st : RngState) (h : hasMissing X = false) :
    RandomAgeImputer.transform e imp X st = Except.ok (X, postSeed imp st) ∧
    (imp.random_state = none → postSeed imp st = st) ∧
    (∀ s, imp.random_state = some s → postSeed imp st = npSeed s) := by
  refine ⟨transform_no_missing e imp X st h, ?_, ?_⟩
  · intro hn; simp [postSeed, hn]
  · intro s hs; simp [postSeed, hs]

/-- C5 amended witness: unseeded imputer on the empty series. -/
theorem C5_witness :
    hasMissing ⟨Dtype.float64, []⟩ = false ∧
    (RandomAgeImputer.transform eDemo ⟨1, 80, none⟩ ⟨Dtype.float64, []⟩ (3, 4)
        = Except.ok (⟨Dtype.float64, []⟩, postSeed ⟨1, 80, none⟩ (3, 4)) ∧
      ((⟨1, 80, none⟩ : RandomAgeImputer).random_state = none →
        postSeed ⟨1, 80, none⟩ (3, 4) = (3, 4)) ∧
      (∀ s, (⟨1, 80, none⟩ : RandomAgeImputer).random_state = some s →
        postSeed ⟨1, 80, none⟩ (3, 4) = npSeed s)) :=
  ⟨by decide, C5_no_missing_identity eDemo ⟨1, 80, none⟩
    ⟨Dtype.float64, []⟩ (3, 4) (by decide)⟩

/-- C6: `transform` never mutates the caller's sequence: threading the
caller's variable through the body (`transformWithInput`), its value at
every exit equals the original input, alongside the ordinary result. -/
theorem C6_input_not_mutated (e : ℕ → ℕ → ℕ) (imp : RandomAgeImputer)
    (X : Series) (st : RngState) :
    RandomAgeImputer.transformWithInput e imp X st =
      (RandomAgeImputer.transform e imp X st).map
        (fun p => (X, p.1, p.2)) := by
  simp only [RandomAgeImputer.transformWithInput, RandomAgeImputer.transform]
  by_cases h : 0 < nMissing X
  · simp only [if_pos h]
    rcases hr : npRandint e imp.min_age (imp.max_age + 1) (nMissing X)
      (postSeed imp st) with u | p
    · simp [Except.map]
    · rcases p with ⟨ra, st2⟩
      by_cases h2 : (fillMissing X.data ra).all Option.isSome
      · simp [h2, Except.map]
      · simp [h2, Except.map]
  · simp [if_neg h, Except.map]

/-- C7: `fill_age` builds the imputer from the configuration, fits it
(no-op) and transforms the `Age` column, so whenever the table has that
column the result is exactly `transform` applied directly to the column
with the same seed and generator state. -/
theorem C7_fill_age_delegates (e : ℕ → ℕ → ℕ) (df : DataFrame)
    (mn mx : ℤ) (rs : Option ℕ) (st : RngState) (col : Series)
    (h : DataFrame.getCol df "Age" = some col) :
    fill_age e df mn mx rs st =
      some (RandomAgeImputer.transform e (age_imputer mn mx rs) col st) := by
  unfold fill_age fit_transform RandomAgeImputer.fit
  rw [h]
  rfl

/-- C7 witness: a two-column table with a missing `Age` entry. -/
theorem C7_witness :
    DataFrame.getCol
        [("Age", ⟨Dtype.float64, [none]⟩), ("Name", ⟨Dtype.float64, [some 1]⟩)]
        "Age" = some ⟨Dtype.float64, [none]⟩ ∧
    fill_age eDemo
        [("Age", ⟨Dtype.float64, [none]⟩), ("Name", ⟨Dtype.float64, [some 1]⟩)]
        20 70 (some 42) (0, 0) =
      some (RandomAgeImputer.transform eDemo (age_imputer 20 70 (some 42))
        ⟨Dtype.float64, [none]⟩ (0, 0)) :=
  ⟨by decide, C7_fill_age_delegates eDemo
    [("Age", ⟨Dtype.float64, [none]⟩), ("Name", ⟨Dtype.float64, [some 1]⟩)]
    20 70 (some 42) (0, 0) ⟨Dtype.float64, [none]⟩ (by decide)⟩

/-- C8: `fit` is a pure no-op: it ignores its argument, always succeeds,
returns the very imputer it was invoked on, and leaves the configuration
(`min_age`, `max_age`, `random_state`) unchanged. -/
theorem C8_fit_is_noop (imp : RandomAgeImputer) (X : Series) :
    RandomAgeImputer.fit imp X = imp ∧
    (RandomAgeImputer.fit imp X).min_age = imp.min_age ∧
    (RandomAgeImputer.fit imp X).max_age = imp.max_age ∧
    (RandomAgeImputer.fit imp X).random_state = imp.random_state :=
  ⟨rfl, rfl, rfl, rfl⟩

/-- C9: with an inverted range (`min_age > max_age`), `transform` raises
exactly when the input has a missing value (the `ValueError` of
`np.random.randint` at line 42); with no missing value the draw primitive
is never invoked and the unchanged copy is returned. -/
theorem C9_inverted_range (e : ℕ → ℕ → ℕ) (imp : RandomAgeImputer)
    (X : Series) (st : RngState) (hgt : imp.max_age < imp.min_age) :
    (hasMissing X = true →
      RandomAgeImputer.transform e imp X st = Except.error ()) ∧
    (hasMissing X = false →
      RandomAgeImputer.transform e imp X st
        = Except.ok (X, postSeed imp st)) := by
  constructor
  · intro hm
    have hpos := (hasMissing_iff_nMissing_pos X).mp hm
    have hlt : ¬ imp.min_age < imp.max_age + 1 := by omega
    simp only [RandomAgeImputer.transform, npRandint, if_pos hpos,
      if_neg hlt]
  · intro hm
    exact transform_no_missing e imp X st hm

/-- C9 witness: bounds `min_age = 5 > 3 = max_age`, input `[NaN]`. -/
theorem C9_witness :
    (3 : ℤ) < 5 ∧
    ((hasMissing ⟨Dtype.float64, [none]⟩ = true →
      RandomAgeImputer.transform eDemo ⟨5, 3, none⟩
        ⟨Dtype.float64, [none]⟩ (0, 0) = Except.error ()) ∧
    (hasMissing ⟨Dtype.float64, [none]⟩ = false →
      RandomAgeImputer.transform eDemo ⟨5, 3, none⟩
        ⟨Dtype.float64, [none]⟩ (0, 0)
        = Except.ok (⟨Dtype.float64, [none]⟩, postSeed ⟨5, 3, none⟩ (0, 0)))) :=
  ⟨by decide, C9_inverted_range eDemo ⟨5, 3, none⟩
    ⟨Dtype.float64, [none]⟩ (0, 0) (by decide)⟩

/-- C10: when the input has at least one missing value the whole output is
coerced to the integral dtype, so every present value is replaced by its
truncation toward zero (its integer part) rather than preserved exactly. -/
theorem C10_present_values_truncated (e : ℕ → ℕ → ℕ)
    (imp : RandomAgeImputer) (X : Series) (st : RngState) (Y : Series)
    (st2 : RngState) (hm : hasMissing X = true)
    (hok : RandomAgeImputer.transform e imp X st = Except.ok (Y, st2)) :
    Y.dtype = Dtype.int64 ∧
    ∀ i v, X.data.get? i = some (some v) →
      Y.data.get? i = some (some ((truncQ v : ℤ) : ℚ)) := by
  rcases transform_missing_inv e imp X st Y st2 hm hok with ⟨hle, hY, -⟩
  subst hY
  refine ⟨rfl, ?_⟩
  intro i v hv
  have hpres := fillMissing_present X.data (draws e imp X st) i v hv
  simp only [List.get?_eq_getElem?] at hpres
  simp [astypeInt_getElem, hpres]

/-- C10 witness: input `[25.5, NaN]`, seed 42: the output is integral and
the present `25.5` becomes `25`. -/
theorem C10_witness :
    (hasMissing ⟨Dtype.float64, [some (mkRat 51 2), none]⟩ = true ∧
      RandomAgeImputer.transform eDemo ⟨1, 80, some 42⟩
        ⟨Dtype.float64, [some (mkRat 51 2), none]⟩ (0, 0)
        = Except.ok (⟨Dtype.int64, [some 25, some 43]⟩, (42, 1))) ∧
    (Dtype.int64 = Dtype.int64 ∧
      ∀ i v, ([some (mkRat 51 2), none] : List (Option ℚ)).get? i
          = some (some v) →
        ([some 25, some 43] : List (Option ℚ)).get? i
          = some (some ((truncQ v : ℤ) : ℚ))) :=
  ⟨⟨by decide, by decide⟩,
    C10_present_values_truncated eDemo ⟨1, 80, some 42⟩
      ⟨Dtype.float64, [some (mkRat 51 2), none]⟩ (0, 0)
      ⟨Dtype.int64, [some 25, some 43]⟩ (42, 1) (by decide) (by decide)⟩

